import Mathlib

/-!
Shallow embedding of the cex-dex-tracker repository, covering the two source
files listings_check.py and perps_data_fetcher.py.

Modelling conventions:
* Python dicts are modelled as insertion-ordered association lists
  (`alistGet` / `alistSet` mirror `d.get(k)` / `d[k] = v`).
* Python sets are modelled as insertion-ordered duplicate-free lists built
  with `setAdd` (mirroring `s.add(x)`).  CPython iterates sets in a
  hash-dependent order; the embedding fixes insertion order, which is one of
  the orders a real run can produce.  Nothing in the source sorts these
  collections.
* The file system is modelled as a map from path strings to parsed file
  contents; `json.load`/`json.dump` round-trips are abstracted away.
* Python floats are modelled as rationals: the claims about numeric fields
  only concern defaulting on missing/None/empty/non-numeric input, not
  rounding behaviour.
-/

/-- A parsed JSON document as a Python object.  JSON `null` parses to the
Python value `None`, modelled by `pNone`. -/
inductive PyObj where
  | pNone
  | pDict (fields : List (String × PyObj))
  | pList (items : List PyObj)
  | pStr (s : String)
  | pInt (n : Int)
  | pBool (b : Bool)

/-- Python `s.add(x)` on an insertion-ordered duplicate-free list. -/
def setAdd {α : Type} [DecidableEq α] (xs : List α) (x : α) : List α :=
  if x ∈ xs then xs else xs ++ [x]

/-- Python `d.get(k)` on an association list (first binding wins). -/
def alistGet {κ β : Type} [DecidableEq κ] : List (κ × β) → κ → Option β
  | [], _ => none
  | p :: rest, k => if p.1 = k then some p.2 else alistGet rest k

/-- Python `d[k] = v`: replace the first binding of `k` in place, or append a
new binding at the end. -/
def alistSet {κ β : Type} [DecidableEq κ] : List (κ × β) → κ → β → List (κ × β)
  | [], k, v => [(k, v)]
  | p :: rest, k, v => if p.1 = k then (k, v) :: rest else p :: alistSet rest k v

/-- Python `d.get(k, dflt)`. -/
def dictGetD {κ β : Type} [DecidableEq κ] (d : List (κ × β)) (k : κ) (dflt : β) : β :=
  (alistGet d k).getD dflt

/-- A listing snapshot `{exchange: [symbols...]}` (dict of exchange name to
collection of symbols), as read from the baseline file or built from live
data. -/
abbrev Snapshot := List (String × List String)

/-- One record of the listings event log `listings/perps_listings.json`:
`{date, symbol, name, action}`. -/
structure LogEntry where
  date : Int
  symbol : String
  name : String
  action : String
deriving DecidableEq, Repr

/-- The sentinel record `{date: t, symbol: "NA", name: "NA",
action: "last updated"}` written by both variants. -/
def sentinelEntry (t : Int) : LogEntry :=
  { date := t, symbol := "NA", name := "NA", action := "last updated" }

/-- The transition record appended for a newly listed (exchange, symbol)
pair. -/
def listedRecord (t : Int) (p : String × String) : LogEntry :=
  { date := t, symbol := p.2, name := p.1, action := "listed" }

/-- The transition record appended for a delisted (exchange, symbol) pair. -/
def delistedRecord (t : Int) (p : String × String) : LogEntry :=
  { date := t, symbol := p.2, name := p.1, action := "delisted" }

namespace ListingsCheck

/-- `load_json` of listings_check.py (lines 27-31): the parsed document when
the path exists, `{}` (empty dict) otherwise. -/
def load_json (fs : String → Option PyObj) (path : String) : PyObj :=
  match fs path with
  | some d => d
  | none => PyObj.pDict []

/-- Lines 110-120 of listings_check.py: overwrite the date of the sentinel at
index 0 if present there, otherwise prepend a fresh sentinel. -/
def updateSentinel (log : List LogEntry) (now : Int) : List LogEntry :=
  match log with
  | [] => [sentinelEntry now]
  | e :: rest =>
    if e.action = "last updated" then { e with date := now } :: rest
    else sentinelEntry now :: e :: rest

/-- The body of the loop in `build_last_state` (lines 60-70): transition
entries overwrite the dict slot for their (exchange, symbol) key. -/
def lastStep (st : List ((String × String) × String)) (e : LogEntry) :
    List ((String × String) × String) :=
  if e.action = "listed" ∨ e.action = "delisted" then
    alistSet st (e.name, e.symbol) e.action
  else st

/-- `build_last_state` (lines 60-70): dict from (exchange, symbol) to the
last "listed"/"delisted" action seen for that pair. -/
def build_last_state (log : List LogEntry) : List ((String × String) × String) :=
  log.foldl lastStep []

/-- The listings loop of `main` (lines 128-134): for each live exchange and
symbol not in the baseline, collect the pair unless its last known action is
already "listed". -/
def lcListed (base_map live_map : Snapshot)
    (last_state : List ((String × String) × String)) : List (String × String) :=
  live_map.foldl (fun acc p =>
    p.2.foldl (fun acc2 sym =>
      if sym ∈ dictGetD base_map p.1 [] then acc2
      else if alistGet last_state (p.1, sym) = some "listed" then acc2
      else acc2 ++ [(p.1, sym)]) acc) []

/-- The delistings loop of `main` (lines 136-142): for each baseline exchange
and symbol not in the live data, collect the pair unless its last known
action is already "delisted". -/
def lcDelisted (base_map live_map : Snapshot)
    (last_state : List ((String × String) × String)) : List (String × String) :=
  base_map.foldl (fun acc p =>
    p.2.foldl (fun acc2 sym =>
      if sym ∈ dictGetD live_map p.1 [] then acc2
      else if alistGet last_state (p.1, sym) = some "delisted" then acc2
      else acc2 ++ [(p.1, sym)]) acc) []

/-- The reconcile portion of `main` (lines 110-157): update the sentinel,
rebuild the last-state index, compute suppressed listings/delistings, and
append the transition records ("listed" ones first). -/
def reconcile (base_map live_map : Snapshot) (log : List LogEntry) (now : Int) :
    List LogEntry :=
  let log1 := updateSentinel log now
  let last_state := build_last_state log1
  let listed := lcListed base_map live_map last_state
  let delisted := lcDelisted base_map live_map last_state
  log1 ++ listed.map (listedRecord now) ++ delisted.map (delistedRecord now)

end ListingsCheck

namespace PerpsDataFetcher

/-- `load_json` of perps_data_fetcher.py (lines 24-28): the parsed document
when the path exists, Python `None` otherwise. -/
def load_json (fs : String → Option PyObj) (path : String) : PyObj :=
  match fs path with
  | some d => d
  | none => PyObj.pNone

/-- The set comprehension `set((m, s) for m, syms in d.items() for s in syms)`
used on lines 99-100: flatten a snapshot into the duplicate-free list of
(exchange, symbol) pairs, in encounter order. -/
def flattenPairs (m : Snapshot) : List (String × String) :=
  m.foldl (fun acc p => p.2.foldl (fun a s => setAdd a (p.1, s)) acc) []

/-- `update_perps_listings_log` (lines 90-117) with the baseline and the log
passed explicitly instead of being read from disk: append a fresh sentinel,
then one "listed" record per pair of current minus baseline, then one
"delisted" record per pair of baseline minus current. -/
def update_perps_listings_log (current_listing_map baseline : Snapshot)
    (log : List LogEntry) (unix_date : Int) : List LogEntry :=
  let log1 := log ++ [sentinelEntry unix_date]
  let baseline_set := flattenPairs baseline
  let current_set := flattenPairs current_listing_map
  let new_listings := current_set.filter (fun p => decide (p ∉ baseline_set))
  let log2 := log1 ++ new_listings.map (listedRecord unix_date)
  let delistings := baseline_set.filter (fun p => decide (p ∉ current_set))
  log2 ++ delistings.map (delistedRecord unix_date)

/-- Python `s.lower()` for the ASCII names this repository uses, written as
a structurally recursive character map (Lean's String.toLower is defined by
well-founded recursion and does not reduce in the kernel). -/
def pyLower (s : String) : String := String.mk (s.data.map Char.toLower)

/-- The raw value of a numeric ticker field as the code distinguishes it:
`missing` (no key, so `t.get` returns None), Python `None`, the empty string,
a string that `float()` parses to `q`, a value on which `float()` raises
(non-numeric string, list, dict, ...), or a number with value `q`. -/
inductive PyField where
  | missing
  | pnone
  | emptyStr
  | numStr (q : ℚ)
  | bad (s : String)
  | num (q : ℚ)
deriving DecidableEq, Repr

/-- The partial conversion performed by Python `float(v)`: the numeric value
when `v` is a number or a numeric string, and `none` where `float` raises. -/
def pyFloat : PyField → Option ℚ
  | PyField.numStr q => some q
  | PyField.num q => some q
  | _ => none

/-- Lines 161-168: `x = float(v) if v not in [None, ""] else 0` wrapped in
`try/except` with `x = 0` on exception.  A missing field behaves as None
because `t.get` already returned None for it. -/
def coerceField (v : PyField) : ℚ :=
  if v = PyField.missing ∨ v = PyField.pnone ∨ v = PyField.emptyStr then 0
  else
    match pyFloat v with
    | some q => q
    | none => 0

/-- One raw ticker record, reduced to the fields lines 155-173 read.
`symbol` models `t.get("symbol", "")`. -/
structure Ticker where
  symbol : String
  open_interest : PyField
  volume_24h : PyField
deriving DecidableEq, Repr

/-- One stored row of a per-exchange daily data file. -/
structure DailyRow where
  symbol : String
  open_interest : ℚ
  volume_24h : ℚ
deriving DecidableEq, Repr

/-- The `data_to_save` loop of `save_exchange_daily_data` (lines 155-173):
one row per ticker, numeric fields coerced. -/
def dataToSave (tickers : List Ticker) : List DailyRow :=
  tickers.map (fun t =>
    { symbol := t.symbol
      open_interest := coerceField t.open_interest
      volume_24h := coerceField t.volume_24h })

/-- The state touched by `save_exchange_daily_data`: per-exchange daily data
files and per-exchange combined index files, each keyed by path. -/
structure PerpsFS where
  dataFiles : List (String × List DailyRow)
  indexFiles : List (String × List String)
deriving DecidableEq, Repr

/-- Line 148: `f"{exchange.lower()}_{unix_date}.json"`. -/
def dailyFname (exchange : String) (unix_date : Int) : String :=
  pyLower exchange ++ "_" ++ toString unix_date ++ ".json"

/-- Lines 146-149: `os.path.join(DATA_ROOT, exchange, fname)`. -/
def dailyPath (exchange : String) (unix_date : Int) : String :=
  "data/perps/" ++ exchange ++ "/" ++ dailyFname exchange unix_date

/-- Line 178: the per-exchange combined index path
`os.path.join(folder, f"combined_{exchange.lower()}.json")`. -/
def indexPath (exchange : String) : String :=
  "data/perps/" ++ exchange ++ "/combined_" ++ pyLower exchange ++ ".json"

/-- `save_exchange_daily_data` (lines 145-184): skip when the daily file for
this (exchange, date) already exists; otherwise write the coerced rows,
append the filename to the combined index when absent, and report whether a
save happened.  `load_json(...) or []` yields `[]` both for a missing index
file and for an empty one, which `Option.getD []` captures. -/
def save_exchange_daily_data (fs : PerpsFS) (exchange : String)
    (tickers : List Ticker) (unix_date : Int) : (String × Bool) × PerpsFS :=
  let fname := dailyFname exchange unix_date
  let path := dailyPath exchange unix_date
  if (alistGet fs.dataFiles path).isSome then ((fname, false), fs)
  else
    let fs1 : PerpsFS :=
      { fs with dataFiles := alistSet fs.dataFiles path (dataToSave tickers) }
    let combined := (alistGet fs1.indexFiles (indexPath exchange)).getD []
    let fs2 : PerpsFS :=
      if fname ∈ combined then fs1
      else { fs1 with
              indexFiles := alistSet fs1.indexFiles (indexPath exchange)
                (combined ++ [fname]) }
    ((fname, true), fs2)

/-- One row of `daily_combined.json`. -/
structure CombEntry where
  date : Int
  market : String
  sum_volume_24h : ℚ
deriving DecidableEq, Repr

/-- The update loop of `update_daily_combined` (lines 190-195): overwrite
`sum_volume_24h` of the first row matching the (date, exchange) key and stop;
`none` when no row matches. -/
def updateFirstMatch (l : List CombEntry) (exchange : String) (sum_volume : ℚ)
    (unix_date : Int) : Option (List CombEntry) :=
  match l with
  | [] => none
  | e :: rest =>
    if e.date = unix_date ∧ pyLower e.market = pyLower exchange then
      some ({ e with sum_volume_24h := sum_volume } :: rest)
    else
      (updateFirstMatch rest exchange sum_volume unix_date).map (e :: ·)

/-- `update_daily_combined` (lines 186-202) acting on the parsed summary
contents: update the first matching row in place, or append a new row when
no row carries the (date, exchange) key. -/
def update_daily_combined (combined_data : List CombEntry) (exchange : String)
    (sum_volume : ℚ) (unix_date : Int) : List CombEntry :=
  match updateFirstMatch combined_data exchange sum_volume unix_date with
  | some l => l
  | none =>
    combined_data ++ [{ date := unix_date, market := exchange,
                        sum_volume_24h := sum_volume }]

end PerpsDataFetcher

/-- The outcome of one HTTP attempt in `fetch_derivatives_data`: either the
request/raise_for_status/json step raises (transport error), or it yields a
parsed body. -/
inductive ApiResp where
  | transportError
  | payload (d : PyObj)

/-- The acceptance test of lines 48 / 133:
`isinstance(data, list) and len(data) > 0`. -/
def respOk : ApiResp → Bool
  | ApiResp.payload (PyObj.pList items) => decide (items.length > 0)
  | _ => false

/-- The accepted items of a response, when `respOk` holds. -/
def respItems : ApiResp → Option (List PyObj)
  | ApiResp.payload (PyObj.pList items) => some items
  | _ => none

/-- The `while attempt < retries` loop of `fetch_derivatives_data`
(identical in both source files, lines 37-58 and 121-143), indexed by the
number of attempts still allowed (`retries - attempt`); `responses n` is the
outcome of the HTTP attempt with counter value `n`.  A non-list or empty body
falls through to the same retry path as a raised exception. -/
def fetchGo (responses : Nat → ApiResp) (attempt : Nat) :
    Nat → Option (List PyObj)
  | 0 => none
  | remaining + 1 =>
    match responses attempt with
    | ApiResp.payload (PyObj.pList items) =>
      if items.length > 0 then some items
      else fetchGo responses (attempt + 1) remaining
    | _ => fetchGo responses (attempt + 1) remaining

/-- `fetch_derivatives_data(api_key, retries, wait_sec)` of both files,
abstracted over the sequence of attempt outcomes: start at attempt 0 with the
full retry budget; return `none` (Python `None`) after exhausting it. -/
def fetch_derivatives_data (responses : Nat → ApiResp) (retries : Nat) :
    Option (List PyObj) :=
  fetchGo responses 0 retries

/-! Helper lemmas about the association-list and set primitives. -/

theorem alistGet_set_self {κ β : Type} [DecidableEq κ] (l : List (κ × β))
    (k : κ) (v : β) : alistGet (alistSet l k v) k = some v := by
  induction l with
  | nil => simp [alistSet, alistGet]
  | cons p rest ih =>
    by_cases h : p.1 = k
    · simp [alistSet, h, alistGet]
    · simp [alistSet, h, alistGet, ih]

theorem alistGet_set_ne {κ β : Type} [DecidableEq κ] (l : List (κ × β))
    (k k2 : κ) (v : β) (h : k2 ≠ k) :
    alistGet (alistSet l k v) k2 = alistGet l k2 := by
  induction l with
  | nil => simp [alistSet, alistGet, Ne.symm h]
  | cons p rest ih =>
    by_cases hp : p.1 = k
    · subst hp
      simp [alistSet, alistGet, Ne.symm h, ih]
    · simp [alistSet, hp, alistGet, ih]

theorem mem_setAdd {α : Type} [DecidableEq α] (xs : List α) (y x : α) :
    x ∈ setAdd xs y ↔ x ∈ xs ∨ x = y := by
  unfold setAdd
  split
  · rename_i hy
    constructor
    · exact Or.inl
    · rintro (h | rfl)
      · exact h
      · exact hy
  · simp

theorem setAdd_nodup {α : Type} [DecidableEq α] {xs : List α} (h : xs.Nodup)
    (x : α) : (setAdd xs x).Nodup := by
  unfold setAdd
  split
  · exact h
  · rename_i hx
    simp [List.nodup_append, h, hx]

theorem foldl_setAdd_nodup {α β : Type} [DecidableEq β] (f : α → β)
    (l : List α) :
    ∀ acc : List β, acc.Nodup →
      (l.foldl (fun a x => setAdd a (f x)) acc).Nodup := by
  induction l with
  | nil => intro acc h; exact h
  | cons x rest ih => intro acc h; exact ih _ (setAdd_nodup h (f x))

theorem flattenPairs_aux_nodup (m : Snapshot) :
    ∀ acc : List (String × String), acc.Nodup →
      (m.foldl (fun acc p => p.2.foldl (fun a s => setAdd a (p.1, s)) acc)
        acc).Nodup := by
  induction m with
  | nil => intro acc h; exact h
  | cons p rest ih =>
    intro acc h
    exact ih _ (foldl_setAdd_nodup (fun s => (p.1, s)) p.2 acc h)

theorem flattenPairs_nodup (m : Snapshot) :
    (PerpsDataFetcher.flattenPairs m).Nodup :=
  flattenPairs_aux_nodup m [] List.nodup_nil

theorem filter_not_mem_length (l l2 : List (String × String)) (h : l.Nodup) :
    (l.filter (fun x => decide (x ∉ l2))).length
      = (l.toFinset \ l2.toFinset).card := by
  have h2 : (l.filter (fun x => decide (x ∉ l2))).Nodup := h.filter _
  rw [← List.toFinset_card_of_nodup h2]
  congr 1
  ext x
  simp [List.mem_filter, Finset.mem_sdiff]

theorem alistGet_of_mem_nodup {κ β : Type} [DecidableEq κ]
    {l : List (κ × β)} {k : κ} {v : β} (hmem : (k, v) ∈ l)
    (hnd : (l.map Prod.fst).Nodup) : alistGet l k = some v := by
  induction l with
  | nil => cases hmem
  | cons p rest ih =>
    rw [List.map_cons, List.nodup_cons] at hnd
    rcases List.mem_cons.mp hmem with heq | h2
    · rw [← heq]
      simp [alistGet]
    · have hp : p.1 ≠ k := by
        intro hk
        exact hnd.1 (by
          rw [hk]
          exact List.mem_map_of_mem Prod.fst h2)
      simp [alistGet, hp]
      exact ih h2 hnd.2

/-! Characterization of the two nested loops of listings_check.main as a
filtered flatten, and lemmas about the last-state index. -/

theorem innerLoop_eq (other : List String)
    (ls : List ((String × String) × String)) (act : String) (ex : String)
    (syms : List String) :
    ∀ acc : List (String × String),
      syms.foldl (fun acc2 sym =>
        if sym ∈ other then acc2
        else if alistGet ls (ex, sym) = some act then acc2
        else acc2 ++ [(ex, sym)]) acc
      = acc ++ (syms.filter (fun sym =>
          decide (sym ∉ other) &&
          decide (alistGet ls (ex, sym) ≠ some act))).map (fun s => (ex, s)) := by
  induction syms with
  | nil => intro acc; simp
  | cons s rest ih =>
    intro acc
    rw [List.foldl_cons]
    by_cases h1 : s ∈ other
    · rw [if_pos h1, ih, List.filter_cons]
      simp [h1]
    · by_cases h2 : alistGet ls (ex, s) = some act
      · rw [if_neg h1, if_pos h2, ih, List.filter_cons]
        simp [h1, h2]
      · rw [if_neg h1, if_neg h2, ih, List.filter_cons]
        simp [h1, h2]

theorem outerLoop_eq (other_map : Snapshot)
    (ls : List ((String × String) × String)) (act : String) (m : Snapshot) :
    ∀ acc : List (String × String),
      m.foldl (fun acc p =>
        p.2.foldl (fun acc2 sym =>
          if sym ∈ dictGetD other_map p.1 [] then acc2
          else if alistGet ls (p.1, sym) = some act then acc2
          else acc2 ++ [(p.1, sym)]) acc) acc
      = acc ++ m.flatMap (fun p => (p.2.filter (fun sym =>
          decide (sym ∉ dictGetD other_map p.1 []) &&
          decide (alistGet ls (p.1, sym) ≠ some act))).map (fun s => (p.1, s))) := by
  induction m with
  | nil => intro acc; simp
  | cons p rest ih =>
    intro acc
    rw [List.foldl_cons, innerLoop_eq, ih]
    simp [List.append_assoc]

theorem lcListed_eq (base live : Snapshot)
    (ls : List ((String × String) × String)) :
    ListingsCheck.lcListed base live ls
      = live.flatMap (fun p => (p.2.filter (fun sym =>
          decide (sym ∉ dictGetD base p.1 []) &&
          decide (alistGet ls (p.1, sym) ≠ some "listed"))).map
            (fun s => (p.1, s))) := by
  unfold ListingsCheck.lcListed
  rw [outerLoop_eq]
  simp

theorem lcDelisted_eq (base live : Snapshot)
    (ls : List ((String × String) × String)) :
    ListingsCheck.lcDelisted base live ls
      = base.flatMap (fun p => (p.2.filter (fun sym =>
          decide (sym ∉ dictGetD live p.1 []) &&
          decide (alistGet ls (p.1, sym) ≠ some "delisted"))).map
            (fun s => (p.1, s))) := by
  unfold ListingsCheck.lcDelisted
  rw [outerLoop_eq]
  simp

theorem mem_lcListed (base live : Snapshot)
    (ls : List ((String × String) × String)) (x : String × String) :
    x ∈ ListingsCheck.lcListed base live ls ↔
      ∃ q ∈ live, ∃ s ∈ q.2, s ∉ dictGetD base q.1 [] ∧
        ¬ alistGet ls (q.1, s) = some "listed" ∧ (q.1, s) = x := by
  rw [lcListed_eq]
  simp [List.mem_flatMap, List.mem_filter]
  tauto

theorem mem_lcDelisted (base live : Snapshot)
    (ls : List ((String × String) × String)) (x : String × String) :
    x ∈ ListingsCheck.lcDelisted base live ls ↔
      ∃ q ∈ base, ∃ s ∈ q.2, s ∉ dictGetD live q.1 [] ∧
        ¬ alistGet ls (q.1, s) = some "delisted" ∧ (q.1, s) = x := by
  rw [lcDelisted_eq]
  simp [List.mem_flatMap, List.mem_filter]
  tauto

theorem build_last_state_append (l1 l2 : List LogEntry) :
    ListingsCheck.build_last_state (l1 ++ l2)
      = l2.foldl ListingsCheck.lastStep (ListingsCheck.build_last_state l1) :=
  List.foldl_append _ _ _ _

theorem lastStep_sentinel (st : List ((String × String) × String)) (t : Int) :
    ListingsCheck.lastStep st (sentinelEntry t) = st := by
  unfold ListingsCheck.lastStep
  rw [if_neg]
  show ¬("last updated" = "listed" ∨ "last updated" = "delisted")
  decide

theorem build_last_state_updateSentinel (log : List LogEntry) (t : Int) :
    ListingsCheck.build_last_state (ListingsCheck.updateSentinel log t)
      = ListingsCheck.build_last_state log := by
  cases log with
  | nil =>
    show ListingsCheck.build_last_state [sentinelEntry t] = _
    unfold ListingsCheck.build_last_state
    rw [List.foldl_cons, lastStep_sentinel]
  | cons e rest =>
    show ListingsCheck.build_last_state
        (if e.action = "last updated" then { e with date := t } :: rest
         else sentinelEntry t :: e :: rest) = _
    by_cases h : e.action = "last updated"
    · rw [if_pos h]
      unfold ListingsCheck.build_last_state
      rw [List.foldl_cons, List.foldl_cons]
      have h1 : ListingsCheck.lastStep [] { e with date := t }
          = ListingsCheck.lastStep [] e := by
        unfold ListingsCheck.lastStep
        rw [if_neg]
        show ¬(e.action = "listed" ∨ e.action = "delisted")
        rw [h]
        decide
      rw [h1]
    · rw [if_neg h]
      unfold ListingsCheck.build_last_state
      rw [List.foldl_cons, lastStep_sentinel]

theorem lookup_foldl_lastStep_notin (k : String × String) :
    ∀ (l : List LogEntry) (st : List ((String × String) × String)),
      (∀ e ∈ l, (e.action = "listed" ∨ e.action = "delisted") →
        (e.name, e.symbol) ≠ k) →
      alistGet (l.foldl ListingsCheck.lastStep st) k = alistGet st k := by
  intro l
  induction l with
  | nil => intro st _; rfl
  | cons e rest ih =>
    intro st hl
    rw [List.foldl_cons, ih _ (fun x hx hax => hl x (List.mem_cons_of_mem _ hx) hax)]
    unfold ListingsCheck.lastStep
    split
    · rename_i h
      exact alistGet_set_ne _ _ _ _ (Ne.symm (hl e (List.mem_cons_self _ _) h))
    · rfl

theorem lookup_foldl_lastStep_const (k : String × String) (a : String) :
    ∀ (l : List LogEntry) (st : List ((String × String) × String)),
      (∀ e ∈ l, (e.action = "listed" ∨ e.action = "delisted") →
        (e.name, e.symbol) = k → e.action = a) →
      ((∃ e ∈ l, (e.action = "listed" ∨ e.action = "delisted") ∧
          (e.name, e.symbol) = k) ∨ alistGet st k = some a) →
      alistGet (l.foldl ListingsCheck.lastStep st) k = some a := by
  intro l
  induction l with
  | nil =>
    intro st _ h
    rcases h with ⟨e, he, _⟩ | h
    · cases he
    · exact h
  | cons e rest ih =>
    intro st hall h
    rw [List.foldl_cons]
    apply ih
    · intro x hx
      exact hall x (List.mem_cons_of_mem _ hx)
    · by_cases htr : e.action = "listed" ∨ e.action = "delisted"
      · by_cases hk : (e.name, e.symbol) = k
        · right
          have ha : e.action = a := hall e (List.mem_cons_self _ _) htr hk
          unfold ListingsCheck.lastStep
          rw [if_pos htr, hk, alistGet_set_self, ha]
        · rcases h with ⟨x, hx, hxt, hxk⟩ | h
          · rcases List.mem_cons.mp hx with heq | hx2
            · exact absurd (heq ▸ hxk) hk
            · exact Or.inl ⟨x, hx2, hxt, hxk⟩
          · right
            unfold ListingsCheck.lastStep
            rw [if_pos htr, alistGet_set_ne _ _ _ _ (Ne.symm hk)]
            exact h
      · rcases h with ⟨x, hx, hxt, hxk⟩ | h
        · rcases List.mem_cons.mp hx with heq | hx2
          · exact absurd (heq ▸ hxt) htr
          · exact Or.inl ⟨x, hx2, hxt, hxk⟩
        · right
          unfold ListingsCheck.lastStep
          rw [if_neg htr]
          exact h

/-! Behaviour of the last-state index across a full reconcile run. -/

theorem reconcile_eq (base live : Snapshot) (log : List LogEntry) (now : Int) :
    ListingsCheck.reconcile base live log now
      = ListingsCheck.updateSentinel log now
        ++ (ListingsCheck.lcListed base live
            (ListingsCheck.build_last_state
              (ListingsCheck.updateSentinel log now))).map (listedRecord now)
        ++ (ListingsCheck.lcDelisted base live
            (ListingsCheck.build_last_state
              (ListingsCheck.updateSentinel log now))).map (delistedRecord now) :=
  rfl

theorem run1_lastState_listed (base live : Snapshot) (log : List LogEntry)
    (t : Int) (hb : (base.map Prod.fst).Nodup) {ex sym : String}
    {syms : List String} (hmem : (ex, syms) ∈ live) (hsym : sym ∈ syms)
    (hnb : sym ∉ dictGetD base ex []) :
    alistGet (ListingsCheck.build_last_state
      (ListingsCheck.reconcile base live log t)) (ex, sym) = some "listed" := by
  have hD : ∀ e ∈ (ListingsCheck.lcDelisted base live
      (ListingsCheck.build_last_state
        (ListingsCheck.updateSentinel log t))).map (delistedRecord t),
      (e.action = "listed" ∨ e.action = "delisted") →
        (e.name, e.symbol) ≠ (ex, sym) := by
    intro e he _ hkey
    rcases List.mem_map.mp he with ⟨p, hp, rfl⟩
    rcases (mem_lcDelisted _ _ _ _).mp hp with ⟨⟨q1, q2⟩, hq, s, hs, _, _, hqs⟩
    have hp1 : p.1 = ex := congrArg Prod.fst hkey
    have hp2 : p.2 = sym := congrArg Prod.snd hkey
    have hq1 : q1 = ex := (congrArg Prod.fst hqs).trans hp1
    have hsv : s = sym := (congrArg Prod.snd hqs).trans hp2
    apply hnb
    rw [← hq1]
    unfold dictGetD
    rw [alistGet_of_mem_nodup hq hb]
    rw [hsv] at hs
    simpa using hs
  rw [reconcile_eq, build_last_state_append, build_last_state_append,
    lookup_foldl_lastStep_notin (ex, sym) _ _ hD]
  apply lookup_foldl_lastStep_const
  · intro e he _ _
    rcases List.mem_map.mp he with ⟨p, _, rfl⟩
    rfl
  · by_cases hlk : alistGet (ListingsCheck.build_last_state
        (ListingsCheck.updateSentinel log t)) (ex, sym) = some "listed"
    · exact Or.inr hlk
    · refine Or.inl ⟨listedRecord t (ex, sym),
        List.mem_map_of_mem _ ?_, Or.inl rfl, rfl⟩
      exact (mem_lcListed _ _ _ _).mpr
        ⟨(ex, syms), hmem, sym, hsym, hnb, hlk, rfl⟩

theorem run1_lastState_delisted (base live : Snapshot) (log : List LogEntry)
    (t : Int) (hl : (live.map Prod.fst).Nodup) {ex sym : String}
    {syms : List String} (hmem : (ex, syms) ∈ base) (hsym : sym ∈ syms)
    (hnl : sym ∉ dictGetD live ex []) :
    alistGet (ListingsCheck.build_last_state
      (ListingsCheck.reconcile base live log t)) (ex, sym) = some "delisted" := by
  rw [reconcile_eq, build_last_state_append, build_last_state_append]
  apply lookup_foldl_lastStep_const
  · intro e he _ _
    rcases List.mem_map.mp he with ⟨p, _, rfl⟩
    rfl
  · by_cases hD : (ex, sym) ∈ ListingsCheck.lcDelisted base live
        (ListingsCheck.build_last_state (ListingsCheck.updateSentinel log t))
    · exact Or.inl ⟨delistedRecord t (ex, sym),
        List.mem_map_of_mem _ hD, Or.inr rfl, rfl⟩
    · right
      have hL : ∀ e ∈ (ListingsCheck.lcListed base live
          (ListingsCheck.build_last_state
            (ListingsCheck.updateSentinel log t))).map (listedRecord t),
          (e.action = "listed" ∨ e.action = "delisted") →
            (e.name, e.symbol) ≠ (ex, sym) := by
        intro e he _ hkey
        rcases List.mem_map.mp he with ⟨p, hp, rfl⟩
        rcases (mem_lcListed _ _ _ _).mp hp with ⟨⟨q1, q2⟩, hq, s, hs, _, _, hqs⟩
        have hp1 : p.1 = ex := congrArg Prod.fst hkey
        have hp2 : p.2 = sym := congrArg Prod.snd hkey
        have hq1 : q1 = ex := (congrArg Prod.fst hqs).trans hp1
        have hsv : s = sym := (congrArg Prod.snd hqs).trans hp2
        apply hnl
        rw [← hq1]
        unfold dictGetD
        rw [alistGet_of_mem_nodup hq hl]
        rw [hsv] at hs
        simpa using hs
      rw [lookup_foldl_lastStep_notin (ex, sym) _ _ hL]
      by_contra hlk
      exact hD ((mem_lcDelisted _ _ _ _).mpr
        ⟨(ex, syms), hmem, sym, hsym, hnl, hlk, rfl⟩)

theorem run2_lcListed_nil (base live : Snapshot) (log : List LogEntry)
    (t1 t2 : Int) (hb : (base.map Prod.fst).Nodup) :
    ListingsCheck.lcListed base live (ListingsCheck.build_last_state
      (ListingsCheck.updateSentinel
        (ListingsCheck.reconcile base live log t1) t2)) = [] := by
  rw [build_last_state_updateSentinel]
  apply List.eq_nil_iff_forall_not_mem.mpr
  intro x hx
  rcases (mem_lcListed _ _ _ _).mp hx with ⟨⟨q1, q2⟩, hq, s, hs, hnb, hlk, _⟩
  exact hlk (run1_lastState_listed base live log t1 hb hq hs hnb)

theorem run2_lcDelisted_nil (base live : Snapshot) (log : List LogEntry)
    (t1 t2 : Int) (hl : (live.map Prod.fst).Nodup) :
    ListingsCheck.lcDelisted base live (ListingsCheck.build_last_state
      (ListingsCheck.updateSentinel
        (ListingsCheck.reconcile base live log t1) t2)) = [] := by
  rw [build_last_state_updateSentinel]
  apply List.eq_nil_iff_forall_not_mem.mpr
  intro x hx
  rcases (mem_lcDelisted _ _ _ _).mp hx with ⟨⟨q1, q2⟩, hq, s, hs, hnl, hlk, _⟩
  exact hlk (run1_lastState_delisted base live log t1 hl hq hs hnl)

/-! Shape lemmas for the two log-updating functions. -/

theorem trans_action_ne_sentinel (e : LogEntry)
    (h : e.action = "listed" ∨ e.action = "delisted") :
    e.action ≠ "last updated" := by
  rcases h with h | h <;> rw [h] <;> decide

theorem updateSentinel_spec (log : List LogEntry) (now : Int)
    (h : ∀ e ∈ log.tail, e.action ≠ "last updated") :
    ∃ e0 rest, ListingsCheck.updateSentinel log now = e0 :: rest ∧
      e0.action = "last updated" ∧ e0.date = now ∧
      ∀ e ∈ rest, e.action ≠ "last updated" := by
  cases log with
  | nil =>
    exact ⟨sentinelEntry now, [], rfl, rfl, rfl, by intro e he; cases he⟩
  | cons e rest =>
    by_cases hact : e.action = "last updated"
    · refine ⟨{ e with date := now }, rest, ?_, hact, rfl, h⟩
      show (if e.action = "last updated" then _ else _) = _
      rw [if_pos hact]
    · refine ⟨sentinelEntry now, e :: rest, ?_, rfl, rfl, ?_⟩
      · show (if e.action = "last updated" then _ else _) = _
        rw [if_neg hact]
      · intro x hx
        rcases List.mem_cons.mp hx with rfl | hx2
        · exact hact
        · exact h x hx2

theorem update_perps_eq (c b : Snapshot) (log : List LogEntry) (t : Int) :
    PerpsDataFetcher.update_perps_listings_log c b log t
      = ((log ++ [sentinelEntry t])
          ++ ((PerpsDataFetcher.flattenPairs c).filter
              (fun p => decide (p ∉ PerpsDataFetcher.flattenPairs b))).map
                (listedRecord t))
        ++ ((PerpsDataFetcher.flattenPairs b).filter
              (fun p => decide (p ∉ PerpsDataFetcher.flattenPairs c))).map
                (delistedRecord t) :=
  rfl

theorem get?_append_middle (l1 : List LogEntry) (x : LogEntry)
    (l2 l3 : List LogEntry) :
    (((l1 ++ [x]) ++ l2) ++ l3).get? l1.length = some x := by
  rw [List.append_assoc, List.append_assoc,
    List.get?_append_right (Nat.le_refl _)]
  simp

/-- Claim C2, counterexample: with an empty file system, the perps variant of
load_json yields Python None for a missing path, which is neither an empty
mapping nor an empty sequence. -/
theorem C2_counterexample :
    PerpsDataFetcher.load_json (fun _ => none) "listings/perps_listings.json"
        = PyObj.pNone ∧
    PyObj.pNone ≠ PyObj.pDict [] ∧ PyObj.pNone ≠ PyObj.pList [] :=
  ⟨rfl, fun h => PyObj.noConfusion h, fun h => PyObj.noConfusion h⟩

/-- Claim C2, amended: both load_json functions return the parsed document
for an existing path and never raise for a missing one; for a missing path
listings_check's load_json returns the empty dict but perps_data_fetcher's
load_json returns Python None rather than an empty mapping or sequence. -/
theorem C2_load_json (fs : String → Option PyObj) (path : String) (d : PyObj) :
    (fs path = some d → ListingsCheck.load_json fs path = d ∧
      PerpsDataFetcher.load_json fs path = d) ∧
    (fs path = none → ListingsCheck.load_json fs path = PyObj.pDict [] ∧
      PerpsDataFetcher.load_json fs path = PyObj.pNone) := by
  constructor
  · intro h
    constructor
    · unfold ListingsCheck.load_json
      rw [h]
    · unfold PerpsDataFetcher.load_json
      rw [h]
  · intro h
    constructor
    · unfold ListingsCheck.load_json
      rw [h]
    · unfold PerpsDataFetcher.load_json
      rw [h]

/-- File system used by the C2 witness. -/
def fsC2 : String → Option PyObj := fun p =>
  if p = "listings/listedtill_5thAug.json" then
    some (PyObj.pList [PyObj.pStr "x"])
  else none

/-- Witness for C2_load_json at a concrete existing path. -/
theorem C2_witness :
    ListingsCheck.load_json fsC2 "listings/listedtill_5thAug.json"
        = PyObj.pList [PyObj.pStr "x"] ∧
    PerpsDataFetcher.load_json fsC2 "listings/listedtill_5thAug.json"
        = PyObj.pList [PyObj.pStr "x"] :=
  (C2_load_json fsC2 "listings/listedtill_5thAug.json"
    (PyObj.pList [PyObj.pStr "x"])).1 rfl

/-- Claim C1, counterexample: in perps_data_fetcher each run appends a fresh
sentinel to the end of the log, so after a second run the log holds two
records with action "last updated" (and the first of them no longer carries
the latest run's timestamp). -/
theorem C1_counterexample :
    ((PerpsDataFetcher.update_perps_listings_log [] []
        (PerpsDataFetcher.update_perps_listings_log [] [] [] 1) 2).filter
      (fun e => decide (e.action = "last updated"))).length = 2 := rfl

/-- Claim C1, amended: in listings_check.main, provided the incoming log
carries no "last updated" record outside index 0, the post-run log has
exactly one such record, at index 0, with date equal to `now`; in
perps_data_fetcher the run instead appends a fresh sentinel with date `t`
immediately after the prior log's records, so sentinels accumulate across
runs. -/
theorem C1_sentinel (base live : Snapshot) (log : List LogEntry) (now : Int)
    (c b : Snapshot) (log2 : List LogEntry) (t : Int)
    (h : ∀ e ∈ log.tail, e.action ≠ "last updated") :
    ((ListingsCheck.reconcile base live log now).head?.map LogEntry.action
        = some "last updated" ∧
      (ListingsCheck.reconcile base live log now).head?.map LogEntry.date
        = some now ∧
      ∀ e ∈ (ListingsCheck.reconcile base live log now).tail,
        e.action ≠ "last updated") ∧
    (PerpsDataFetcher.update_perps_listings_log c b log2 t).get? log2.length
      = some (sentinelEntry t) := by
  constructor
  · rcases updateSentinel_spec log now h with ⟨e0, rest, heq, ha, hd, hrest⟩
    rw [reconcile_eq, heq]
    refine ⟨?_, ?_, ?_⟩
    · show some e0.action = some "last updated"
      rw [ha]
    · show some e0.date = some now
      rw [hd]
    · intro x hx
      simp only [List.cons_append, List.tail_cons] at hx
      rcases List.mem_append.mp hx with hx1 | hx1
      · rcases List.mem_append.mp hx1 with hx2 | hx2
        · exact hrest x hx2
        · rcases List.mem_map.mp hx2 with ⟨p, _, rfl⟩
          exact trans_action_ne_sentinel _ (Or.inl rfl)
      · rcases List.mem_map.mp hx1 with ⟨p, _, rfl⟩
        exact trans_action_ne_sentinel _ (Or.inr rfl)
  · rw [update_perps_eq, get?_append_middle]

/-- Witness for C1_sentinel at concrete inputs. -/
theorem C1_witness :
    ((ListingsCheck.reconcile [("A", ["X"])] [("A", ["X", "Y"])] [] 7).head?.map
        LogEntry.action = some "last updated" ∧
      (ListingsCheck.reconcile [("A", ["X"])] [("A", ["X", "Y"])] [] 7).head?.map
        LogEntry.date = some 7 ∧
      ∀ e ∈ (ListingsCheck.reconcile [("A", ["X"])] [("A", ["X", "Y"])] [] 7).tail,
        e.action ≠ "last updated") ∧
    (PerpsDataFetcher.update_perps_listings_log [("A", ["Y"])] [] [] 3).get? 0
      = some (sentinelEntry 3) :=
  C1_sentinel [("A", ["X"])] [("A", ["X", "Y"])] [] 7 [("A", ["Y"])] [] [] 3
    (by intro e he; cases he)

/-- Every record a run appends past the sentinel-updated prefix passed the
suppression guard: its (exchange, symbol) pair's last known action in the
last-state index of that run differs from the record's own action. -/
theorem reconcile_appended_not_dup (base live : Snapshot) (L : List LogEntry)
    (t : Int) :
    ∀ r ∈ (ListingsCheck.reconcile base live L t).drop
        (ListingsCheck.updateSentinel L t).length,
      ¬ alistGet (ListingsCheck.build_last_state
          (ListingsCheck.updateSentinel L t)) (r.name, r.symbol)
        = some r.action := by
  intro r hr
  rw [reconcile_eq, List.append_assoc, List.drop_left] at hr
  rcases List.mem_append.mp hr with h | h
  · rcases List.mem_map.mp h with ⟨⟨p1, p2⟩, hp, rfl⟩
    rcases (mem_lcListed _ _ _ _).mp hp with ⟨q, hq, s, hs, hnb, hlk, hqs⟩
    injection hqs with h1 h2
    subst h1
    subst h2
    exact hlk
  · rcases List.mem_map.mp h with ⟨⟨p1, p2⟩, hp, rfl⟩
    rcases (mem_lcDelisted _ _ _ _).mp hp with ⟨q, hq, s, hs, hnl, hlk, hqs⟩
    injection hqs with h1 h2
    subst h1
    subst h2
    exact hlk

/-- Claim C6 (confirmed): running the listings_check reconcile twice with the
same baseline and live snapshots appends, in the second run, no transition
record whose (exchange, symbol, action) duplicates that pair's last known
action; moreover, under the dict invariant that exchange keys are unique,
the second run appends no transition records at all. -/
theorem C6_no_duplicate_transitions (base live : Snapshot) (log : List LogEntry)
    (t1 t2 : Int) :
    (∀ r ∈ (ListingsCheck.reconcile base live
          (ListingsCheck.reconcile base live log t1) t2).drop
        (ListingsCheck.updateSentinel
          (ListingsCheck.reconcile base live log t1) t2).length,
      ¬ alistGet (ListingsCheck.build_last_state
          (ListingsCheck.updateSentinel
            (ListingsCheck.reconcile base live log t1) t2)) (r.name, r.symbol)
        = some r.action) ∧
    ((base.map Prod.fst).Nodup → (live.map Prod.fst).Nodup →
      ListingsCheck.reconcile base live
          (ListingsCheck.reconcile base live log t1) t2
        = ListingsCheck.updateSentinel
            (ListingsCheck.reconcile base live log t1) t2) := by
  constructor
  · exact reconcile_appended_not_dup base live
      (ListingsCheck.reconcile base live log t1) t2
  · intro hb hl
    rw [reconcile_eq, run2_lcListed_nil base live log t1 t2 hb,
      run2_lcDelisted_nil base live log t1 t2 hl]
    simp

/-- Witness for C6_no_duplicate_transitions at concrete inputs. -/
theorem C6_witness :
    ListingsCheck.reconcile [("A", ["X"])] [("A", ["X", "Y"]), ("B", ["Z"])]
        (ListingsCheck.reconcile [("A", ["X"])]
          [("A", ["X", "Y"]), ("B", ["Z"])] [] 1) 2
      = ListingsCheck.updateSentinel
          (ListingsCheck.reconcile [("A", ["X"])]
            [("A", ["X", "Y"]), ("B", ["Z"])] [] 1) 2 :=
  (C6_no_duplicate_transitions [("A", ["X"])] [("A", ["X", "Y"]), ("B", ["Z"])]
    [] 1 2).2 (by decide) (by decide)

/-! Filtering the appended block of a perps run by action. -/

theorem filter_listed_append (t : Int) (L D : List (String × String)) :
    (L.map (listedRecord t) ++ D.map (delistedRecord t)).filter
      (fun e => decide (e.action = "listed")) = L.map (listedRecord t) := by
  rw [List.filter_append]
  have h1 : (L.map (listedRecord t)).filter
      (fun e => decide (e.action = "listed")) = L.map (listedRecord t) := by
    apply List.filter_eq_self.mpr
    intro e he
    rcases List.mem_map.mp he with ⟨p, _, rfl⟩
    exact decide_eq_true rfl
  have h2 : (D.map (delistedRecord t)).filter
      (fun e => decide (e.action = "listed")) = [] := by
    apply List.filter_eq_nil.mpr
    intro e he
    rcases List.mem_map.mp he with ⟨p, _, rfl⟩
    simp [delistedRecord]
  rw [h1, h2, List.append_nil]

theorem filter_delisted_append (t : Int) (L D : List (String × String)) :
    (L.map (listedRecord t) ++ D.map (delistedRecord t)).filter
      (fun e => decide (e.action = "delisted")) = D.map (delistedRecord t) := by
  rw [List.filter_append]
  have h1 : (L.map (listedRecord t)).filter
      (fun e => decide (e.action = "delisted")) = [] := by
    apply List.filter_eq_nil.mpr
    intro e he
    rcases List.mem_map.mp he with ⟨p, _, rfl⟩
    simp [listedRecord]
  have h2 : (D.map (delistedRecord t)).filter
      (fun e => decide (e.action = "delisted")) = D.map (delistedRecord t) := by
    apply List.filter_eq_self.mpr
    intro e he
    rcases List.mem_map.mp he with ⟨p, _, rfl⟩
    exact decide_eq_true rfl
  rw [h1, h2, List.nil_append]

theorem lcListed_self_nil (m : Snapshot)
    (ls : List ((String × String) × String))
    (hnd : (m.map Prod.fst).Nodup) : ListingsCheck.lcListed m m ls = [] := by
  apply List.eq_nil_iff_forall_not_mem.mpr
  intro x hx
  rcases (mem_lcListed _ _ _ _).mp hx with ⟨⟨q1, q2⟩, hq, s, hs, hnb, _, _⟩
  apply hnb
  unfold dictGetD
  rw [alistGet_of_mem_nodup hq hnd]
  simpa using hs

theorem lcDelisted_self_nil (m : Snapshot)
    (ls : List ((String × String) × String))
    (hnd : (m.map Prod.fst).Nodup) : ListingsCheck.lcDelisted m m ls = [] := by
  apply List.eq_nil_iff_forall_not_mem.mpr
  intro x hx
  rcases (mem_lcDelisted _ _ _ _).mp hx with ⟨⟨q1, q2⟩, hq, s, hs, hnl, _, _⟩
  apply hnl
  unfold dictGetD
  rw [alistGet_of_mem_nodup hq hnd]
  simpa using hs

/-- Claim C5, counterexample: in listings_check, a prior log whose last
action for (E, Y) is already "listed" suppresses the new record, so the
number of appended "listed" records (0) differs from |current − baseline|
(1). -/
theorem C5_counterexample :
    (((ListingsCheck.reconcile [] [("E", ["Y"])]
          [{ date := 0, symbol := "Y", name := "E", action := "listed" }] 5).drop
        (ListingsCheck.updateSentinel
          [{ date := 0, symbol := "Y", name := "E", action := "listed" }]
          5).length).filter
      (fun e => decide (e.action = "listed"))).length = 0 ∧
    ((PerpsDataFetcher.flattenPairs [("E", ["Y"])]).toFinset
        \ (PerpsDataFetcher.flattenPairs []).toFinset).card = 1 := by
  constructor
  · rfl
  · rfl

/-- Claim C5, amended: in perps_data_fetcher the appended "listed" and
"delisted" records number exactly |flatten(current) − flatten(baseline)| and
|flatten(baseline) − flatten(current)| for every prior log, and a run with
current = baseline appends no transition records; in listings_check,
last-state suppression can push the counts below these set-difference sizes
(see the counterexample), but a run with base_map = live_map still appends no
transition records (given the dict invariant of unique exchange keys). -/
theorem C5_transition_counts (c b a a2 : Snapshot) (log log2 : List LogEntry)
    (t t2 : Int) :
    (((PerpsDataFetcher.update_perps_listings_log c b log t).drop
          (log.length + 1)).filter
        (fun e => decide (e.action = "listed"))).length
      = ((PerpsDataFetcher.flattenPairs c).toFinset
          \ (PerpsDataFetcher.flattenPairs b).toFinset).card ∧
    (((PerpsDataFetcher.update_perps_listings_log c b log t).drop
          (log.length + 1)).filter
        (fun e => decide (e.action = "delisted"))).length
      = ((PerpsDataFetcher.flattenPairs b).toFinset
          \ (PerpsDataFetcher.flattenPairs c).toFinset).card ∧
    PerpsDataFetcher.update_perps_listings_log a a log t
      = log ++ [sentinelEntry t] ∧
    ((a2.map Prod.fst).Nodup →
      ListingsCheck.reconcile a2 a2 log2 t2
        = ListingsCheck.updateSentinel log2 t2) := by
  have hlen : (log ++ [sentinelEntry t]).length = log.length + 1 := by simp
  refine ⟨?_, ?_, ?_, ?_⟩
  · rw [update_perps_eq, List.append_assoc, ← hlen, List.drop_left,
      filter_listed_append, List.length_map,
      filter_not_mem_length _ _ (flattenPairs_nodup c)]
  · rw [update_perps_eq, List.append_assoc, ← hlen, List.drop_left,
      filter_delisted_append, List.length_map,
      filter_not_mem_length _ _ (flattenPairs_nodup b)]
  · rw [update_perps_eq]
    have hnil : (PerpsDataFetcher.flattenPairs a).filter
        (fun p => decide (p ∉ PerpsDataFetcher.flattenPairs a)) = [] := by
      apply List.filter_eq_nil.mpr
      intro p hp
      simp [hp]
    rw [hnil]
    simp
  · intro hnd
    rw [reconcile_eq, lcListed_self_nil _ _ hnd, lcDelisted_self_nil _ _ hnd]
    simp

/-- Witness for C5_transition_counts at concrete inputs. -/
theorem C5_witness :
    ListingsCheck.reconcile [("E", ["X"])] [("E", ["X"])] [] 5
      = ListingsCheck.updateSentinel [] 5 :=
  (C5_transition_counts [] [] [] [("E", ["X"])] [] [] 0 5).2.2.2 (by decide)

/-- Code-point lexicographic comparison of character lists, the order Python
uses when comparing strings. -/
def strLtB : List Char → List Char → Bool
  | [], [] => false
  | [], _ :: _ => true
  | _ :: _, [] => false
  | c :: a2, d :: b2 =>
    if c < d then true else if d < c then false else strLtB a2 b2

/-- Strict lexicographic order on strings (Python `s < t`). -/
def strLt (s t : String) : Prop := strLtB s.data t.data = true

/-- Non-strict lexicographic order on strings (Python `s <= t`). -/
def strLe (s t : String) : Prop := strLt s t ∨ s = t

/-- Ordering by (exchange, symbol) — the order Python uses on tuples of
strings — used to state sortedness of transition records. -/
def pairLe (x y : String × String) : Prop :=
  strLt x.1 y.1 ∨ (x.1 = y.1 ∧ strLe x.2 y.2)

instance (s t : String) : Decidable (strLt s t) := by
  unfold strLt
  infer_instance

instance (s t : String) : Decidable (strLe s t) := by
  unfold strLe
  infer_instance

instance (x y : String × String) : Decidable (pairLe x y) := by
  unfold pairLe
  infer_instance

/-- The (exchange, symbol) pairs of a snapshot in the order the nested loops
of listings_check.main (lines 128-142) visit them: exchanges in dict order,
symbols in their collection's order, duplicates kept. -/
def flattenSnapshot (m : Snapshot) : List (String × String) :=
  m.flatMap (fun p => p.2.map (fun s => (p.1, s)))

theorem flatMap_sublist {α β : Type} (f g : α → List β)
    (h : ∀ a, List.Sublist (f a) (g a)) :
    ∀ l : List α, List.Sublist (l.flatMap f) (l.flatMap g) := by
  intro l
  induction l with
  | nil => exact List.Sublist.refl _
  | cons a rest ih =>
    rw [List.flatMap_cons, List.flatMap_cons]
    exact (h a).append ih

theorem lcListed_sublist (base live : Snapshot)
    (ls : List ((String × String) × String)) :
    List.Sublist (ListingsCheck.lcListed base live ls) (flattenSnapshot live) := by
  rw [lcListed_eq]
  unfold flattenSnapshot
  exact flatMap_sublist _ _
    (fun p => (List.filter_sublist _).map (fun s => (p.1, s))) live

theorem lcDelisted_sublist (base live : Snapshot)
    (ls : List ((String × String) × String)) :
    List.Sublist (ListingsCheck.lcDelisted base live ls) (flattenSnapshot base) := by
  rw [lcDelisted_eq]
  unfold flattenSnapshot
  exact flatMap_sublist _ _
    (fun p => (List.filter_sublist _).map (fun s => (p.1, s))) base

/-- Claim C3, counterexample: with current snapshot {E: [B, A]} (symbols
encountered in the order B, A) and empty baseline, both variants append the
record for (E, B) before the one for (E, A), which is not sorted
(exchange, symbol) order; no sorting exists in either source function. -/
theorem C3_counterexample :
    ((PerpsDataFetcher.update_perps_listings_log [("E", ["B", "A"])] [] [] 3).get?
        1).map (fun e => (e.name, e.symbol)) = some ("E", "B") ∧
    ((PerpsDataFetcher.update_perps_listings_log [("E", ["B", "A"])] [] [] 3).get?
        2).map (fun e => (e.name, e.symbol)) = some ("E", "A") ∧
    ((ListingsCheck.reconcile [] [("E", ["B", "A"])] [] 3).get? 1).map
        (fun e => (e.name, e.symbol)) = some ("E", "B") ∧
    ((ListingsCheck.reconcile [] [("E", ["B", "A"])] [] 3).get? 2).map
        (fun e => (e.name, e.symbol)) = some ("E", "A") ∧
    ¬ pairLe ("E", "B") ("E", "A") := by
  refine ⟨rfl, rfl, rfl, rfl, ?_⟩
  unfold pairLe
  decide

/-- Claim C3, amended: neither variant sorts; the appended records follow
the snapshots' iteration order — in perps_data_fetcher the "listed" block
follows flatten(current) and the "delisted" block flatten(baseline), while
in listings_check each block follows the nested-loop visit order of live_map
resp. base_map.  In particular, whenever the corresponding flattened
sequence is in sorted (exchange, symbol) order, the appended block is too;
in general no sortedness is guaranteed (see the counterexample). -/
theorem C3_order_inherited (c b : Snapshot) (log : List LogEntry) (t : Int)
    (base live : Snapshot) (log2 : List LogEntry) (t2 : Int)
    (hc : (PerpsDataFetcher.flattenPairs c).Pairwise pairLe)
    (hb : (PerpsDataFetcher.flattenPairs b).Pairwise pairLe)
    (hlive : (flattenSnapshot live).Pairwise pairLe)
    (hbase : (flattenSnapshot base).Pairwise pairLe) :
    (((PerpsDataFetcher.update_perps_listings_log c b log t).drop
          (log.length + 1)).filter
        (fun e => decide (e.action = "listed"))).Pairwise
      (fun e1 e2 => pairLe (e1.name, e1.symbol) (e2.name, e2.symbol)) ∧
    (((PerpsDataFetcher.update_perps_listings_log c b log t).drop
          (log.length + 1)).filter
        (fun e => decide (e.action = "delisted"))).Pairwise
      (fun e1 e2 => pairLe (e1.name, e1.symbol) (e2.name, e2.symbol)) ∧
    (((ListingsCheck.reconcile base live log2 t2).drop
          (ListingsCheck.updateSentinel log2 t2).length).filter
        (fun e => decide (e.action = "listed"))).Pairwise
      (fun e1 e2 => pairLe (e1.name, e1.symbol) (e2.name, e2.symbol)) ∧
    (((ListingsCheck.reconcile base live log2 t2).drop
          (ListingsCheck.updateSentinel log2 t2).length).filter
        (fun e => decide (e.action = "delisted"))).Pairwise
      (fun e1 e2 => pairLe (e1.name, e1.symbol) (e2.name, e2.symbol)) := by
  have hlen : (log ++ [sentinelEntry t]).length = log.length + 1 := by simp
  refine ⟨?_, ?_, ?_, ?_⟩
  · rw [update_perps_eq, List.append_assoc, ← hlen, List.drop_left,
      filter_listed_append, List.pairwise_map]
    exact (hc.sublist (List.filter_sublist _))
  · rw [update_perps_eq, List.append_assoc, ← hlen, List.drop_left,
      filter_delisted_append, List.pairwise_map]
    exact (hb.sublist (List.filter_sublist _))
  · rw [reconcile_eq, List.append_assoc, List.drop_left,
      filter_listed_append, List.pairwise_map]
    exact (hlive.sublist (lcListed_sublist base live _))
  · rw [reconcile_eq, List.append_assoc, List.drop_left,
      filter_delisted_append, List.pairwise_map]
    exact (hbase.sublist (lcDelisted_sublist base live _))

/-- Witness for C3_order_inherited at concrete sorted inputs, exercising
both variants. -/
theorem C3_witness :
    (((PerpsDataFetcher.update_perps_listings_log
          [("A", ["X", "Y"]), ("B", ["Z"])] [("A", ["X"])] [] 9).drop 1).filter
        (fun e => decide (e.action = "listed"))).Pairwise
      (fun e1 e2 => pairLe (e1.name, e1.symbol) (e2.name, e2.symbol)) ∧
    (((PerpsDataFetcher.update_perps_listings_log
          [("A", ["X", "Y"]), ("B", ["Z"])] [("A", ["X"])] [] 9).drop 1).filter
        (fun e => decide (e.action = "delisted"))).Pairwise
      (fun e1 e2 => pairLe (e1.name, e1.symbol) (e2.name, e2.symbol)) ∧
    (((ListingsCheck.reconcile [("A", ["X"])] [("A", ["X", "Y"]), ("B", ["Z"])]
          [] 9).drop
          (ListingsCheck.updateSentinel ([] : List LogEntry) 9).length).filter
        (fun e => decide (e.action = "listed"))).Pairwise
      (fun e1 e2 => pairLe (e1.name, e1.symbol) (e2.name, e2.symbol)) ∧
    (((ListingsCheck.reconcile [("A", ["X"])] [("A", ["X", "Y"]), ("B", ["Z"])]
          [] 9).drop
          (ListingsCheck.updateSentinel ([] : List LogEntry) 9).length).filter
        (fun e => decide (e.action = "delisted"))).Pairwise
      (fun e1 e2 => pairLe (e1.name, e1.symbol) (e2.name, e2.symbol)) :=
  C3_order_inherited [("A", ["X", "Y"]), ("B", ["Z"])] [("A", ["X"])] [] 9
    [("A", ["X"])] [("A", ["X", "Y"]), ("B", ["Z"])] [] 9
    (by decide) (by decide) (by decide) (by decide)

/-! Numeric coercion (claim C7). -/

theorem coerceField_cases (v : PerpsDataFetcher.PyField) :
    (∃ q, PerpsDataFetcher.pyFloat v = some q ∧
      PerpsDataFetcher.coerceField v = q) ∨
    (PerpsDataFetcher.pyFloat v = none ∧ PerpsDataFetcher.coerceField v = 0) := by
  cases v with
  | missing => right; exact ⟨rfl, rfl⟩
  | pnone => right; exact ⟨rfl, rfl⟩
  | emptyStr => right; exact ⟨rfl, rfl⟩
  | numStr q => left; exact ⟨q, rfl, rfl⟩
  | bad s => right; exact ⟨rfl, rfl⟩
  | num q => left; exact ⟨q, rfl, rfl⟩

/-- Claim C7 (confirmed): save_exchange_daily_data stores one row per ticker
(never omitting one and never raising), with symbol preserved and each
numeric field equal to the float value of the raw field when it parses, and
0 when the raw field is missing, None, the empty string, or non-numeric. -/
theorem C7_numeric_coercion (tickers : List PerpsDataFetcher.Ticker) :
    (PerpsDataFetcher.dataToSave tickers).length = tickers.length ∧
    ∀ i t, tickers.get? i = some t →
      ∃ r, (PerpsDataFetcher.dataToSave tickers).get? i = some r ∧
        r.symbol = t.symbol ∧
        ((∃ q, PerpsDataFetcher.pyFloat t.open_interest = some q ∧
            r.open_interest = q) ∨
          (PerpsDataFetcher.pyFloat t.open_interest = none ∧
            r.open_interest = 0)) ∧
        ((∃ q, PerpsDataFetcher.pyFloat t.volume_24h = some q ∧
            r.volume_24h = q) ∨
          (PerpsDataFetcher.pyFloat t.volume_24h = none ∧
            r.volume_24h = 0)) := by
  constructor
  · exact List.length_map _ _
  · intro i t ht
    refine ⟨{ symbol := t.symbol,
              open_interest := PerpsDataFetcher.coerceField t.open_interest,
              volume_24h := PerpsDataFetcher.coerceField t.volume_24h },
      ?_, rfl, ?_, ?_⟩
    · unfold PerpsDataFetcher.dataToSave
      rw [List.get?_map, ht]
      rfl
    · exact coerceField_cases t.open_interest
    · exact coerceField_cases t.volume_24h

/-- Witness for C7_numeric_coercion at a concrete ticker with a null
open_interest. -/
theorem C7_witness :
    ∃ r, (PerpsDataFetcher.dataToSave
        [{ symbol := "BTCUSDT",
           open_interest := PerpsDataFetcher.PyField.pnone,
           volume_24h := PerpsDataFetcher.PyField.num 5 }]).get? 0 = some r ∧
      r.symbol = "BTCUSDT" ∧
      ((∃ q, PerpsDataFetcher.pyFloat PerpsDataFetcher.PyField.pnone = some q ∧
          r.open_interest = q) ∨
        (PerpsDataFetcher.pyFloat PerpsDataFetcher.PyField.pnone = none ∧
          r.open_interest = 0)) ∧
      ((∃ q, PerpsDataFetcher.pyFloat (PerpsDataFetcher.PyField.num 5) = some q ∧
          r.volume_24h = q) ∨
        (PerpsDataFetcher.pyFloat (PerpsDataFetcher.PyField.num 5) = none ∧
          r.volume_24h = 0)) :=
  (C7_numeric_coercion
    [{ symbol := "BTCUSDT",
       open_interest := PerpsDataFetcher.PyField.pnone,
       volume_24h := PerpsDataFetcher.PyField.num 5 }]).2 0 _ rfl

/-! Retry loop (claim C8). -/

theorem respOk_true_iff (r : ApiResp) :
    respOk r = true ↔
      ∃ items, r = ApiResp.payload (PyObj.pList items) ∧ items.length > 0 := by
  cases r with
  | transportError => simp [respOk]
  | payload d => cases d <;> simp [respOk]

theorem fetchGo_step (responses : Nat → ApiResp) (attempt remaining : Nat)
    (h : respOk (responses attempt) = false) :
    fetchGo responses attempt (remaining + 1)
      = fetchGo responses (attempt + 1) remaining := by
  conv_lhs => unfold fetchGo
  cases hr : responses attempt with
  | transportError => rfl
  | payload d =>
    cases d with
    | pList items =>
      rw [hr] at h
      simp only [respOk] at h
      show (if items.length > 0 then some items
        else fetchGo responses (attempt + 1) remaining)
        = fetchGo responses (attempt + 1) remaining
      rw [if_neg (of_decide_eq_false h)]
    | pNone => rfl
    | pDict fields => rfl
    | pStr s => rfl
    | pInt n => rfl
    | pBool bb => rfl

theorem fetchGo_none (responses : Nat → ApiResp) :
    ∀ (remaining attempt : Nat),
      (∀ i, attempt ≤ i → i < attempt + remaining →
        respOk (responses i) = false) →
      fetchGo responses attempt remaining = none := by
  intro remaining
  induction remaining with
  | zero => intro attempt _; rfl
  | succ rem ih =>
    intro attempt h
    rw [fetchGo_step responses attempt rem
      (h attempt (Nat.le_refl _) (by omega))]
    exact ih (attempt + 1) (fun i h1 h2 => h i (by omega) (by omega))

theorem fetchGo_first (responses : Nat → ApiResp) :
    ∀ (remaining attempt i : Nat), attempt ≤ i → i < attempt + remaining →
      respOk (responses i) = true →
      (∀ j, attempt ≤ j → j < i → respOk (responses j) = false) →
      fetchGo responses attempt remaining = respItems (responses i) := by
  intro remaining
  induction remaining with
  | zero => intro attempt i h1 h2 _ _; omega
  | succ rem ih =>
    intro attempt i h1 h2 hok hbefore
    by_cases hi : i = attempt
    · subst hi
      rcases (respOk_true_iff _).mp hok with ⟨items, hr, hlen⟩
      conv_lhs => unfold fetchGo
      rw [hr]
      show (if items.length > 0 then some items
        else fetchGo responses (i + 1) rem)
        = respItems (ApiResp.payload (PyObj.pList items))
      rw [if_pos hlen]
      rfl
    · have hlt : attempt < i := by omega
      rw [fetchGo_step responses attempt rem
        (hbefore attempt (Nat.le_refl _) hlt)]
      exact ih (attempt + 1) i (by omega) (by omega) hok
        (fun j hj1 hj2 => hbefore j (by omega) hj2)

theorem fetchGo_congr (responses responses2 : Nat → ApiResp) :
    ∀ (remaining attempt : Nat),
      (∀ i, attempt ≤ i → i < attempt + remaining →
        responses2 i = responses i) →
      fetchGo responses2 attempt remaining
        = fetchGo responses attempt remaining := by
  intro remaining
  induction remaining with
  | zero => intro attempt _; rfl
  | succ rem ih =>
    intro attempt h
    have ih2 := ih (attempt + 1) (fun i h1 h2 => h i (by omega) (by omega))
    unfold fetchGo
    rw [h attempt (Nat.le_refl _) (by omega)]
    cases responses attempt with
    | transportError => exact ih2
    | payload d =>
      cases d with
      | pList items =>
        show (if items.length > 0 then some items
            else fetchGo responses2 (attempt + 1) rem)
          = (if items.length > 0 then some items
            else fetchGo responses (attempt + 1) rem)
        rw [ih2]
      | pNone => exact ih2
      | pDict fields => exact ih2
      | pStr s => exact ih2
      | pInt n => exact ih2
      | pBool bb => exact ih2

/-- Claim C8 (confirmed): fetch_derivatives_data returns the first accepted
(non-empty list) response among the first `retries` attempt outcomes; when no
attempt is accepted — transport errors and non-list/empty bodies being
rejected alike, out of the same budget — it returns None without raising;
and the result never depends on outcomes beyond the first `retries`
attempts (at most `retries` attempts are consulted). -/
theorem C8_fetch_retries (responses : Nat → ApiResp) (retries : Nat) :
    (∀ i, i < retries → respOk (responses i) = true →
      (∀ j, j < i → respOk (responses j) = false) →
      fetch_derivatives_data responses retries = respItems (responses i)) ∧
    ((∀ i, i < retries → respOk (responses i) = false) →
      fetch_derivatives_data responses retries = none) ∧
    (∀ responses2 : Nat → ApiResp,
      (∀ i, i < retries → responses2 i = responses i) →
      fetch_derivatives_data responses2 retries
        = fetch_derivatives_data responses retries) := by
  refine ⟨?_, ?_, ?_⟩
  · intro i hi hok hb
    exact fetchGo_first responses retries 0 i (Nat.zero_le _) (by omega) hok
      (fun j _ hj => hb j hj)
  · intro h
    exact fetchGo_none responses retries 0 (fun i _ h2 => h i (by omega))
  · intro responses2 h
    exact fetchGo_congr responses responses2 retries 0
      (fun i _ h2 => h i (by omega))

/-- Attempt outcomes used by the C8 witness: a transport error on attempt 0,
then a good payload. -/
def responsesC8 : Nat → ApiResp := fun i =>
  if i = 0 then ApiResp.transportError
  else ApiResp.payload (PyObj.pList [PyObj.pStr "row"])

/-- Witness for C8_fetch_retries: with 3 retries, the first good attempt (1)
supplies the returned payload. -/
theorem C8_witness :
    fetch_derivatives_data responsesC8 3 = respItems (responsesC8 1) :=
  (C8_fetch_retries responsesC8 3).1 1 (by omega) rfl
    (by
      intro j hj
      have hj0 : j = 0 := by omega
      subst hj0
      rfl)

/-! Upsert into daily_combined.json (claim C9). -/

theorem updateFirstMatch_cons_pos (e : PerpsDataFetcher.CombEntry)
    (l : List PerpsDataFetcher.CombEntry) (exchange : String) (v : ℚ) (d : Int)
    (hc : e.date = d ∧ PerpsDataFetcher.pyLower e.market = PerpsDataFetcher.pyLower exchange) :
    PerpsDataFetcher.updateFirstMatch (e :: l) exchange v d
      = some ({ e with sum_volume_24h := v } :: l) := by
  conv_lhs => unfold PerpsDataFetcher.updateFirstMatch
  rw [if_pos hc]

theorem updateFirstMatch_cons_neg (e : PerpsDataFetcher.CombEntry)
    (l : List PerpsDataFetcher.CombEntry) (exchange : String) (v : ℚ) (d : Int)
    (hc : ¬(e.date = d ∧ PerpsDataFetcher.pyLower e.market = PerpsDataFetcher.pyLower exchange)) :
    PerpsDataFetcher.updateFirstMatch (e :: l) exchange v d
      = (PerpsDataFetcher.updateFirstMatch l exchange v d).map (e :: ·) := by
  conv_lhs => unfold PerpsDataFetcher.updateFirstMatch
  rw [if_neg hc]

theorem updateFirstMatch_none_iff (exchange : String) (v : ℚ) (d : Int) :
    ∀ l : List PerpsDataFetcher.CombEntry,
      (PerpsDataFetcher.updateFirstMatch l exchange v d = none ↔
        ∀ e ∈ l, ¬(e.date = d ∧ PerpsDataFetcher.pyLower e.market = PerpsDataFetcher.pyLower exchange)) := by
  intro l
  induction l with
  | nil => simp [PerpsDataFetcher.updateFirstMatch]
  | cons e rest ih =>
    constructor
    · intro h x hx
      by_cases hc : e.date = d ∧ PerpsDataFetcher.pyLower e.market = PerpsDataFetcher.pyLower exchange
      · rw [updateFirstMatch_cons_pos e rest exchange v d hc] at h
        cases h
      · rw [updateFirstMatch_cons_neg e rest exchange v d hc] at h
        rcases List.mem_cons.mp hx with rfl | hx2
        · exact hc
        · exact (ih.mp (Option.map_eq_none'.mp h)) x hx2
    · intro h
      have hc : ¬(e.date = d ∧ PerpsDataFetcher.pyLower e.market = PerpsDataFetcher.pyLower exchange) :=
        h e (List.mem_cons_self _ _)
      rw [updateFirstMatch_cons_neg e rest exchange v d hc,
        ih.mpr (fun x hx => h x (List.mem_cons_of_mem _ hx))]
      rfl

theorem updateFirstMatch_some_length (exchange : String) (v : ℚ) (d : Int) :
    ∀ (l l2 : List PerpsDataFetcher.CombEntry),
      PerpsDataFetcher.updateFirstMatch l exchange v d = some l2 →
      l2.length = l.length := by
  intro l
  induction l with
  | nil => intro l2 h; cases h
  | cons e rest ih =>
    intro l2 h
    by_cases hc : e.date = d ∧ PerpsDataFetcher.pyLower e.market = PerpsDataFetcher.pyLower exchange
    · rw [updateFirstMatch_cons_pos e rest exchange v d hc] at h
      cases h
      simp
    · rw [updateFirstMatch_cons_neg e rest exchange v d hc] at h
      rcases Option.map_eq_some'.mp h with ⟨l3, h3, rfl⟩
      simp [ih l3 h3]

theorem updateFirstMatch_stable (exchange : String) (v : ℚ) (d : Int) :
    ∀ (l l2 : List PerpsDataFetcher.CombEntry),
      PerpsDataFetcher.updateFirstMatch l exchange v d = some l2 →
      PerpsDataFetcher.updateFirstMatch l2 exchange v d = some l2 := by
  intro l
  induction l with
  | nil => intro l2 h; cases h
  | cons e rest ih =>
    intro l2 h
    by_cases hc : e.date = d ∧ PerpsDataFetcher.pyLower e.market = PerpsDataFetcher.pyLower exchange
    · rw [updateFirstMatch_cons_pos e rest exchange v d hc] at h
      cases h
      rw [updateFirstMatch_cons_pos { e with sum_volume_24h := v } rest
        exchange v d hc]
    · rw [updateFirstMatch_cons_neg e rest exchange v d hc] at h
      rcases Option.map_eq_some'.mp h with ⟨l3, h3, rfl⟩
      rw [updateFirstMatch_cons_neg e l3 exchange v d hc, ih l3 h3]
      rfl

theorem updateFirstMatch_append_none (l2 : List PerpsDataFetcher.CombEntry)
    (exchange : String) (v : ℚ) (d : Int) :
    ∀ l : List PerpsDataFetcher.CombEntry,
      PerpsDataFetcher.updateFirstMatch l exchange v d = none →
      PerpsDataFetcher.updateFirstMatch (l ++ l2) exchange v d
        = (PerpsDataFetcher.updateFirstMatch l2 exchange v d).map (l ++ ·) := by
  intro l
  induction l with
  | nil =>
    intro _
    simp
  | cons e rest ih =>
    intro h
    by_cases hc : e.date = d ∧ PerpsDataFetcher.pyLower e.market = PerpsDataFetcher.pyLower exchange
    · rw [updateFirstMatch_cons_pos e rest exchange v d hc] at h
      cases h
    · rw [updateFirstMatch_cons_neg e rest exchange v d hc] at h
      rw [List.cons_append,
        updateFirstMatch_cons_neg e (rest ++ l2) exchange v d hc,
        ih (Option.map_eq_none'.mp h), Option.map_map]
      rfl

theorem updateFirstMatch_decomp (exchange : String) (v : ℚ) (d : Int) :
    ∀ (l l2 : List PerpsDataFetcher.CombEntry),
      PerpsDataFetcher.updateFirstMatch l exchange v d = some l2 →
      ∃ l1 e l3, l = l1 ++ e :: l3 ∧
        (∀ x ∈ l1, ¬(x.date = d ∧ PerpsDataFetcher.pyLower x.market
          = PerpsDataFetcher.pyLower exchange)) ∧
        (e.date = d ∧ PerpsDataFetcher.pyLower e.market
          = PerpsDataFetcher.pyLower exchange) ∧
        l2 = l1 ++ ({ e with sum_volume_24h := v } :: l3) := by
  intro l
  induction l with
  | nil => intro l2 h; cases h
  | cons e rest ih =>
    intro l2 h
    by_cases hc : e.date = d ∧ PerpsDataFetcher.pyLower e.market
        = PerpsDataFetcher.pyLower exchange
    · rw [updateFirstMatch_cons_pos e rest exchange v d hc] at h
      cases h
      exact ⟨[], e, rest, rfl, fun x hx => absurd hx (List.not_mem_nil x),
        hc, rfl⟩
    · rw [updateFirstMatch_cons_neg e rest exchange v d hc] at h
      rcases Option.map_eq_some'.mp h with ⟨l3, h3, rfl⟩
      rcases ih l3 h3 with ⟨l1, e2, l4, heq, hall, hme, hupd⟩
      refine ⟨e :: l1, e2, l4, ?_, ?_, hme, ?_⟩
      · rw [heq, List.cons_append]
      · intro x hx
        rcases List.mem_cons.mp hx with rfl | hx2
        · exact hc
        · exact hall x hx2
      · rw [hupd, List.cons_append]

/-- Claim C9 (confirmed): update_daily_combined is an idempotent upsert by
the (date, exchange) key — when a matching row exists, the first matching
row has its sum_volume_24h overwritten with the new value while every other
row is kept unchanged (so the summary keeps its length and nothing is
appended), a new row is appended exactly when no row matches, and applying
the function twice with the same arguments equals applying it once. -/
theorem C9_upsert (l : List PerpsDataFetcher.CombEntry) (exchange : String)
    (v : ℚ) (d : Int) :
    ((∃ e ∈ l, e.date = d ∧ PerpsDataFetcher.pyLower e.market = PerpsDataFetcher.pyLower exchange) →
      ∃ l1 e l2, l = l1 ++ e :: l2 ∧
        (∀ x ∈ l1, ¬(x.date = d ∧ PerpsDataFetcher.pyLower x.market
          = PerpsDataFetcher.pyLower exchange)) ∧
        (e.date = d ∧ PerpsDataFetcher.pyLower e.market
          = PerpsDataFetcher.pyLower exchange) ∧
        PerpsDataFetcher.update_daily_combined l exchange v d
          = l1 ++ ({ e with sum_volume_24h := v } :: l2)) ∧
    ((∃ e ∈ l, e.date = d ∧ PerpsDataFetcher.pyLower e.market = PerpsDataFetcher.pyLower exchange) →
      (PerpsDataFetcher.update_daily_combined l exchange v d).length
        = l.length) ∧
    ((∀ e ∈ l, ¬(e.date = d ∧ PerpsDataFetcher.pyLower e.market = PerpsDataFetcher.pyLower exchange)) →
      PerpsDataFetcher.update_daily_combined l exchange v d
        = l ++ [{ date := d, market := exchange, sum_volume_24h := v }]) ∧
    PerpsDataFetcher.update_daily_combined
        (PerpsDataFetcher.update_daily_combined l exchange v d) exchange v d
      = PerpsDataFetcher.update_daily_combined l exchange v d := by
  refine ⟨?_, ?_, ?_, ?_⟩
  · intro hex
    have hm : ∃ l2, PerpsDataFetcher.updateFirstMatch l exchange v d
        = some l2 := by
      cases hm2 : PerpsDataFetcher.updateFirstMatch l exchange v d with
      | none =>
        rcases hex with ⟨e, he, hp⟩
        exact absurd hp ((updateFirstMatch_none_iff exchange v d l).mp hm2 e he)
      | some l2 => exact ⟨l2, rfl⟩
    rcases hm with ⟨l2, hm⟩
    rcases updateFirstMatch_decomp exchange v d l l2 hm with
      ⟨l1, e, l3, heq, hall, hme, hupd⟩
    refine ⟨l1, e, l3, heq, hall, hme, ?_⟩
    unfold PerpsDataFetcher.update_daily_combined
    rw [hm]
    exact hupd
  · intro hex
    unfold PerpsDataFetcher.update_daily_combined
    cases hm : PerpsDataFetcher.updateFirstMatch l exchange v d with
    | none =>
      rcases hex with ⟨e, he, hp⟩
      exact absurd hp ((updateFirstMatch_none_iff exchange v d l).mp hm e he)
    | some l2 => exact updateFirstMatch_some_length exchange v d l l2 hm
  · intro hall
    unfold PerpsDataFetcher.update_daily_combined
    rw [(updateFirstMatch_none_iff exchange v d l).mpr hall]
  · cases hm : PerpsDataFetcher.updateFirstMatch l exchange v d with
    | some l2 =>
      have h1 : PerpsDataFetcher.update_daily_combined l exchange v d = l2 := by
        unfold PerpsDataFetcher.update_daily_combined
        rw [hm]
      rw [h1]
      unfold PerpsDataFetcher.update_daily_combined
      rw [updateFirstMatch_stable exchange v d l l2 hm]
    | none =>
      have h1 : PerpsDataFetcher.update_daily_combined l exchange v d
          = l ++ [{ date := d, market := exchange, sum_volume_24h := v }] := by
        unfold PerpsDataFetcher.update_daily_combined
        rw [hm]
      rw [h1]
      unfold PerpsDataFetcher.update_daily_combined
      rw [updateFirstMatch_append_none _ exchange v d l hm]
      have h2 : PerpsDataFetcher.updateFirstMatch
          [{ date := d, market := exchange, sum_volume_24h := v }] exchange v d
          = some [{ date := d, market := exchange, sum_volume_24h := v }] := by
        rw [updateFirstMatch_cons_pos _ _ exchange v d ⟨rfl, rfl⟩]
      rw [h2]
      rfl

/-- Witness for C9_upsert: the existing row with the matching (date, market)
key has its sum_volume_24h overwritten in place, so the one-row summary now
carries the new volume. -/
theorem C9_witness :
    (∃ l1 e l2,
      ([{ date := 5, market := "binance", sum_volume_24h := 10 }] :
          List PerpsDataFetcher.CombEntry) = l1 ++ e :: l2 ∧
      (∀ x ∈ l1, ¬(x.date = 5 ∧ PerpsDataFetcher.pyLower x.market
        = PerpsDataFetcher.pyLower "binance")) ∧
      (e.date = 5 ∧ PerpsDataFetcher.pyLower e.market
        = PerpsDataFetcher.pyLower "binance") ∧
      PerpsDataFetcher.update_daily_combined
          [{ date := 5, market := "binance", sum_volume_24h := 10 }]
          "binance" 7 5
        = l1 ++ ({ e with sum_volume_24h := 7 } :: l2)) ∧
    PerpsDataFetcher.update_daily_combined
        [{ date := 5, market := "binance", sum_volume_24h := 10 }]
        "binance" 7 5
      = [{ date := 5, market := "binance", sum_volume_24h := 7 }] :=
  ⟨(C9_upsert [{ date := 5, market := "binance", sum_volume_24h := 10 }]
      "binance" 7 5).1
    ⟨{ date := 5, market := "binance", sum_volume_24h := 10 },
      List.mem_singleton.mpr rfl, rfl, rfl⟩,
    rfl⟩

/-! Per-exchange daily file writes (claims C10 and C4). -/

/-- Claim C10 (confirmed): when the per-exchange daily file for the given
(exchange, date) already exists, save_exchange_daily_data returns
(fname, False) and leaves the whole file system state — that file, the
per-exchange combined index, and everything else — exactly as it was. -/
theorem C10_skip_existing (fs : PerpsDataFetcher.PerpsFS) (exchange : String)
    (tickers : List PerpsDataFetcher.Ticker) (unix_date : Int)
    (rows : List PerpsDataFetcher.DailyRow)
    (h : alistGet fs.dataFiles (PerpsDataFetcher.dailyPath exchange unix_date)
      = some rows) :
    PerpsDataFetcher.save_exchange_daily_data fs exchange tickers unix_date
      = ((PerpsDataFetcher.dailyFname exchange unix_date, false), fs) := by
  simp only [PerpsDataFetcher.save_exchange_daily_data]
  rw [h]
  rfl

/-- File system used by the C10 witness: the daily file for (Binance, 100)
and its index entry already exist. -/
def fsC10 : PerpsDataFetcher.PerpsFS :=
  { dataFiles := [("data/perps/Binance/binance_100.json",
      [{ symbol := "BTCUSDT", open_interest := 1, volume_24h := 2 }])],
    indexFiles := [("data/perps/Binance/combined_binance.json",
      ["binance_100.json"])] }

/-- Witness for C10_skip_existing at a concrete state. -/
theorem C10_witness :
    PerpsDataFetcher.save_exchange_daily_data fsC10 "Binance" [] 100
      = (("binance_100.json", false), fsC10) :=
  C10_skip_existing fsC10 "Binance" [] 100
    [{ symbol := "BTCUSDT", open_interest := 1, volume_24h := 2 }] rfl

/-- Contents standing in for a daily file far larger than 3 MB when
serialized (100000 rows of roughly 90 bytes each). -/
def bigRows : List PerpsDataFetcher.DailyRow :=
  List.replicate 100000 { symbol := "BTCUSDT", open_interest := 0, volume_24h := 0 }

/-- File system used by the C4 counterexample: the active daily file for
(Binance, 100) exists and holds far more than 3 MB of rows. -/
def fsC4 : PerpsDataFetcher.PerpsFS :=
  { dataFiles := [("data/perps/Binance/binance_100.json", bigRows)],
    indexFiles := [] }

/-- Claim C4, counterexample: with the active daily file already present and
far beyond 3 MB, save_exchange_daily_data performs no rotation whatsoever —
it returns (fname, False), creates no suffixed file, and leaves both the
data files and the index files untouched. -/
theorem C4_counterexample :
    PerpsDataFetcher.save_exchange_daily_data fsC4 "Binance" [] 100
      = (("binance_100.json", false), fsC4) := rfl

/-- Claim C4, amended: save_exchange_daily_data has no size threshold and no
numeric rotation suffix.  It writes the single file
`{exchange_lower}_{unix_date}.json` only when that file is absent, reporting
(fname, True); in that case the file receives the coerced rows, the filename
is recorded in the per-exchange index `combined_{exchange_lower}.json`, and
no other data or index file changes.  When the file exists (of any size) the
call returns (fname, False) and changes nothing. -/
theorem C4_save_behaviour (fs : PerpsDataFetcher.PerpsFS) (exchange : String)
    (tickers : List PerpsDataFetcher.Ticker) (unix_date : Int)
    (h : alistGet fs.dataFiles (PerpsDataFetcher.dailyPath exchange unix_date)
      = none) :
    (PerpsDataFetcher.save_exchange_daily_data fs exchange tickers unix_date).1
      = (PerpsDataFetcher.dailyFname exchange unix_date, true) ∧
    alistGet (PerpsDataFetcher.save_exchange_daily_data fs exchange tickers
        unix_date).2.dataFiles (PerpsDataFetcher.dailyPath exchange unix_date)
      = some (PerpsDataFetcher.dataToSave tickers) ∧
    PerpsDataFetcher.dailyFname exchange unix_date ∈
      (alistGet (PerpsDataFetcher.save_exchange_daily_data fs exchange tickers
          unix_date).2.indexFiles (PerpsDataFetcher.indexPath exchange)).getD [] ∧
    (∀ p, p ≠ PerpsDataFetcher.dailyPath exchange unix_date →
      alistGet (PerpsDataFetcher.save_exchange_daily_data fs exchange tickers
          unix_date).2.dataFiles p = alistGet fs.dataFiles p) ∧
    (∀ p, p ≠ PerpsDataFetcher.indexPath exchange →
      alistGet (PerpsDataFetcher.save_exchange_daily_data fs exchange tickers
          unix_date).2.indexFiles p = alistGet fs.indexFiles p) := by
  have heq : PerpsDataFetcher.save_exchange_daily_data fs exchange tickers
      unix_date
      = ((PerpsDataFetcher.dailyFname exchange unix_date, true),
        if PerpsDataFetcher.dailyFname exchange unix_date ∈
            (alistGet fs.indexFiles (PerpsDataFetcher.indexPath exchange)).getD []
          then
          PerpsDataFetcher.PerpsFS.mk
            (alistSet fs.dataFiles
              (PerpsDataFetcher.dailyPath exchange unix_date)
              (PerpsDataFetcher.dataToSave tickers))
            fs.indexFiles
        else
          PerpsDataFetcher.PerpsFS.mk
            (alistSet fs.dataFiles
              (PerpsDataFetcher.dailyPath exchange unix_date)
              (PerpsDataFetcher.dataToSave tickers))
            (alistSet fs.indexFiles (PerpsDataFetcher.indexPath exchange)
              (((alistGet fs.indexFiles
                  (PerpsDataFetcher.indexPath exchange)).getD [])
                ++ [PerpsDataFetcher.dailyFname exchange unix_date]))) := by
    simp only [PerpsDataFetcher.save_exchange_daily_data]
    rw [h]
    rfl
  rw [heq]
  by_cases hidx : PerpsDataFetcher.dailyFname exchange unix_date ∈
      (alistGet fs.indexFiles (PerpsDataFetcher.indexPath exchange)).getD []
  · rw [if_pos hidx]
    refine ⟨rfl, ?_, hidx, ?_, ?_⟩
    · exact alistGet_set_self _ _ _
    · intro p hp
      exact alistGet_set_ne _ _ _ _ hp
    · intro p _
      rfl
  · rw [if_neg hidx]
    refine ⟨rfl, ?_, ?_, ?_, ?_⟩
    · exact alistGet_set_self _ _ _
    · rw [alistGet_set_self]
      simp
    · intro p hp
      exact alistGet_set_ne _ _ _ _ hp
    · intro p hp
      exact alistGet_set_ne _ _ _ _ hp

/-- Witness for C4_save_behaviour: saving into an empty state writes the file
and records it in the index. -/
theorem C4_witness :
    (PerpsDataFetcher.save_exchange_daily_data
        { dataFiles := [], indexFiles := [] } "Binance" [] 100).1
      = (PerpsDataFetcher.dailyFname "Binance" 100, true) ∧
    alistGet (PerpsDataFetcher.save_exchange_daily_data
        { dataFiles := [], indexFiles := [] } "Binance" [] 100).2.dataFiles
        (PerpsDataFetcher.dailyPath "Binance" 100)
      = some (PerpsDataFetcher.dataToSave []) ∧
    PerpsDataFetcher.dailyFname "Binance" 100 ∈
      (alistGet (PerpsDataFetcher.save_exchange_daily_data
          { dataFiles := [], indexFiles := [] } "Binance" [] 100).2.indexFiles
        (PerpsDataFetcher.indexPath "Binance")).getD [] ∧
    (∀ p, p ≠ PerpsDataFetcher.dailyPath "Binance" 100 →
      alistGet (PerpsDataFetcher.save_exchange_daily_data
          { dataFiles := [], indexFiles := [] } "Binance" [] 100).2.dataFiles p
        = alistGet ({ dataFiles := [], indexFiles := [] } :
            PerpsDataFetcher.PerpsFS).dataFiles p) ∧
    (∀ p, p ≠ PerpsDataFetcher.indexPath "Binance" →
      alistGet (PerpsDataFetcher.save_exchange_daily_data
          { dataFiles := [], indexFiles := [] } "Binance" [] 100).2.indexFiles p
        = alistGet ({ dataFiles := [], indexFiles := [] } :
            PerpsDataFetcher.PerpsFS).indexFiles p) :=
  C4_save_behaviour { dataFiles := [], indexFiles := [] } "Binance" [] 100 rfl
